import Mathlib

/-!
# Verification of `scripts/plot_latency.py`

A shallow embedding of the latency-plotting script: it reads two
single-column CSV files (`../csvs/mutex_ns.csv`, `../csvs/sem_ns.csv`),
fits a `MinMaxScaler` on their concatenation, transforms each column
(the results are never used), computes 100 linearly spaced histogram bin
edges spanning the raw global min/max, and renders two overlaid
histograms.

Numbers are modelled as rationals `ℚ` (the script only does exact
linear arithmetic on the sample values: min, max, linspace, affine
scaling).  Fallible library calls are modelled with `Except`:

* `pandas.read_csv` raises `FileNotFoundError` on a missing file and
  `EmptyDataError` on an empty file; a present, non-empty file is read
  line by line, each line one field of the single column `lat`.
  A field that is not a numeric literal is kept as a string cell
  (pandas produces an object column; the failure only surfaces later,
  at `scaler.fit`).
* `sklearn.MinMaxScaler.fit` raises `ValueError` when the data contains
  non-numeric cells (and on an empty array); on numeric data it records
  the column min and max, with the zero-range guard
  `_handle_zeros_in_scale` replacing a zero range by 1.
* `matplotlib`'s `hist` delegates binning to `numpy.histogram`, which
  rejects a bin-edge array exactly when some consecutive pair decreases
  (the check is non-strict: equal consecutive edges are accepted).

The script catches only `FileNotFoundError` (printing
`Error: No se encontró el archivo <filename>.` and calling the
argument-less `exit()`, i.e. exit status 0); every other exception
propagates and terminates the process abnormally.
-/

attribute [local semireducible] Rat.add Rat.sub Rat.mul Rat.inv

/-- A Python-level exception, as far as this script can observe one. -/
inductive PyError where
  | fileNotFound (filename : String)
  | emptyData (filename : String)
  | valueError
  deriving DecidableEq, Repr

/-- One field of the CSV column: a parsed number, or the raw string when
the field is not a numeric literal (pandas then builds an object column). -/
inductive Cell where
  | num (q : ℚ)
  | str (s : String)
  deriving DecidableEq, Repr

/-- Numeric view of a cell. -/
def Cell.toNum : Cell → Option ℚ
  | .num q => some q
  | .str _ => none

/-- Value of a decimal digit character. -/
def digitVal (c : Char) : Option ℕ :=
  if c.isDigit then some (c.toNat - 48) else none

/-- Accumulate decimal digits into a natural number. -/
def digitsToNatAux : List Char → ℕ → Option ℕ
  | [], acc => some acc
  | c :: cs, acc =>
    match digitVal c with
    | some d => digitsToNatAux cs (10 * acc + d)
    | none => none

/-- Parse a non-empty run of decimal digits. -/
def digitsToNat (cs : List Char) : Option ℕ :=
  if cs.isEmpty then none else digitsToNatAux cs 0

/-- Parse a decimal numeric literal (optional sign, optional fractional
part) into a rational, the way pandas type-infers a CSV field. -/
def parseNumber (s : String) : Option ℚ :=
  let afterSign : ℚ × List Char :=
    match s.data with
    | '-' :: t => (-1, t)
    | '+' :: t => (1, t)
    | t => (1, t)
  match (afterSign.2.splitOn '.') with
  | [intPart] =>
    (digitsToNat intPart).map (fun n => afterSign.1 * (n : ℚ))
  | [intPart, fracPart] =>
    (digitsToNat intPart).bind (fun n =>
      (digitsToNat fracPart).map (fun f =>
        afterSign.1 * ((n : ℚ) + (f : ℚ) / (10 : ℚ) ^ fracPart.length)))
  | _ => none

/-- One field per line, numeric where the text parses. -/
def parseCell (line : String) : Cell :=
  match parseNumber line with
  | some q => .num q
  | none => .str line

/-- The file system the script sees: the contents (lines) of the two
fixed input paths, `none` when the file does not exist. -/
structure FileSys where
  mutexFile : Option (List String)
  semFile : Option (List String)
  deriving DecidableEq, Repr

/-- Path of the mutex latency file (line 7 of the script). -/
def mutexPath : String := "../csvs/mutex_ns.csv"

/-- Path of the semaphore latency file (line 8 of the script). -/
def semPath : String := "../csvs/sem_ns.csv"

/-- `pd.read_csv(path, header=None, names=['lat'])`: `FileNotFoundError`
on a missing file, `EmptyDataError` on an empty one, otherwise the
single column `lat`, one cell per line. -/
def read_csv (path : String) (contents : Option (List String)) :
    Except PyError (List Cell) :=
  match contents with
  | none => .error (.fileNotFound path)
  | some lines =>
    if lines.isEmpty then .error (.emptyData path)
    else .ok (lines.map parseCell)

/-- The `try:` block, lines 7–8: read the mutex file, then the
semaphore file; the first exception aborts the block. -/
def tryRead (fs : FileSys) : Except PyError (List Cell × List Cell) := do
  let df_mutex ← read_csv mutexPath fs.mutexFile
  let df_sem ← read_csv semPath fs.semFile
  pure (df_mutex, df_sem)

/-- The handler's message, line 10:
`f"Error: No se encontró el archivo {e.filename}."` (the braces delimit
the interpolated filename in the Python source). -/
def errMsg (filename : String) : String :=
  "Error: No se encontró el archivo " ++ filename ++ "."

/-- All-numeric view of a column (what `scaler.fit` needs): `some` of
the parsed values when every cell is numeric, `none` otherwise. -/
def colNums : List Cell → Option (List ℚ)
  | [] => some []
  | c :: cs => c.toNum.bind (fun q => (colNums cs).map (fun qs => q :: qs))

/-- `Series.min` on a non-empty numeric column (line 21); the `[]` case
is unreachable in the script because `read_csv` rejects empty files. -/
def colMin : List ℚ → ℚ
  | [] => 0
  | x :: xs => xs.foldl min x

/-- `Series.max` on a non-empty numeric column (line 22). -/
def colMax : List ℚ → ℚ
  | [] => 0
  | x :: xs => xs.foldl max x

/-- The fitted state of `MinMaxScaler()` with the default feature range
[0, 1]: the per-feature data min and max seen at `fit`. -/
structure MinMaxScaler where
  dataMin : ℚ
  dataMax : ℚ
  deriving DecidableEq, Repr

/-- sklearn's `_handle_zeros_in_scale`: a zero range becomes 1 so the
transform stays well defined on constant data. -/
def handleZeros (r : ℚ) : ℚ :=
  if r = 0 then 1 else r

/-- `scaler.fit(combined)` (line 15): `ValueError` on non-numeric or
empty data, else record the column min and max. -/
def MinMaxScaler.fit (cells : List Cell) : Except PyError MinMaxScaler :=
  match colNums cells with
  | none => .error .valueError
  | some qs =>
    match qs with
    | [] => .error .valueError
    | _ :: _ => .ok ⟨colMin qs, colMax qs⟩

/-- `scaler.scale_` for feature range [0, 1]. -/
def MinMaxScaler.scale (sc : MinMaxScaler) : ℚ :=
  1 / handleZeros (sc.dataMax - sc.dataMin)

/-- `scaler.min_` for feature range [0, 1]. -/
def MinMaxScaler.minShift (sc : MinMaxScaler) : ℚ :=
  0 - sc.dataMin * sc.scale

/-- `scaler.transform` (lines 17–18): the affine map
`x * scale_ + min_`, elementwise. -/
def MinMaxScaler.transform (sc : MinMaxScaler) (xs : List ℚ) : List ℚ :=
  xs.map (fun x => x * sc.scale + sc.minShift)

/-- `np.linspace a b n` over `ℚ`: `n` evenly spaced points from `a` to
`b` inclusive. -/
def linspace (a b : ℚ) (n : ℕ) : List ℚ :=
  if n = 0 then []
  else if n = 1 then [a]
  else (List.range n).map (fun i : ℕ => a + (b - a) * (i : ℚ) / ((n : ℚ) - 1))

/-- `min_limit` (line 21): the smaller of the two columns' minima. -/
def min_limit (mq sq : List ℚ) : ℚ :=
  min (colMin mq) (colMin sq)

/-- `max_limit` (line 22): the larger of the two columns' maxima. -/
def max_limit (mq sq : List ℚ) : ℚ :=
  max (colMax mq) (colMax sq)

/-- `bins` (line 23): 100 linearly spaced edges over the raw range. -/
def binsOf (mq sq : List ℚ) : List ℚ :=
  linspace (min_limit mq sq) (max_limit mq sq) 100

/-- One `plt.hist` series as it ends up in the figure: the raw data,
the shared bin edges, and the styling of lines 24–25. -/
structure HistSeries where
  values : List ℚ
  bins : List ℚ
  alpha : ℚ
  label : String
  color : String
  deriving DecidableEq, Repr

/-- The figure assembled by lines 20–30. -/
structure Chart where
  figsizeW : ℚ
  figsizeH : ℚ
  series : List HistSeries
  title : String
  xlabel : String
  ylabel : String
  legend : Bool
  grid : Bool
  deriving DecidableEq, Repr

/-- Lines 20–30: the figure as a function of the two raw columns and
the bin edges only. -/
def renderChart (mq sq bins : List ℚ) : Chart :=
  { figsizeW := 12
    figsizeH := 7
    series := [⟨mq, bins, 7 / 10, "Mutex", "skyblue"⟩,
               ⟨sq, bins, 7 / 10, "Semáforo", "salmon"⟩]
    title := "Distribución de Latencias en Idle (Mutex vs Semáforo)"
    xlabel := "Latencia (ns)"
    ylabel := "Frecuencia"
    legend := true
    grid := true }

/-- `numpy.histogram`'s bin-edge validation, reached through
`plt.hist(..., bins=bins)`: the edge array is rejected exactly when
some consecutive pair decreases (equal neighbours are accepted). -/
def plotHist (bins : List ℚ) : Except PyError Unit :=
  if bins.Chain' (· ≤ ·) then .ok () else .error .valueError

/-- Everything the script has computed by line 25: the (unused) scaled
arrays, the bin edges, and the figure. -/
structure PipelineState where
  scaled_mutex : List ℚ
  scaled_sem : List ℚ
  bins : List ℚ
  chart : Chart
  deriving DecidableEq, Repr

/-- Lines 17–25 with the two `scaler.transform` results threaded as
explicit arguments: the chart is built from the raw columns and the
bin edges; the scaled arrays are merely carried along. -/
def buildOutput (mq sq scaledM scaledS : List ℚ) : PipelineState :=
  { scaled_mutex := scaledM
    scaled_sem := scaledS
    bins := binsOf mq sq
    chart := renderChart mq sq (binsOf mq sq) }

/-- How a run of the script ends. -/
inductive RunResult where
  /-- `exit()` from the `except` handler: the printed lines and the
  process exit status. -/
  | earlyExit (printed : List String) (exitCode : ℕ)
  /-- An uncaught exception: abnormal termination, nothing printed by
  the script itself. -/
  | crashed (err : PyError)
  /-- The happy path: the figure is shown and the script falls off the
  end with exit status 0. -/
  | finished (st : PipelineState) (exitCode : ℕ)
  deriving DecidableEq, Repr

/-- Exit status of the process: `exit()` and falling off the end give
0, an uncaught exception gives 1. -/
def RunResult.exitStatus : RunResult → ℕ
  | .earlyExit _ c => c
  | .finished _ c => c
  | .crashed _ => 1

/-- The final pipeline state, when the run reached the end. -/
def RunResult.stateOf : RunResult → Option PipelineState
  | .finished st _ => some st
  | _ => none

/-- Everything the script printed to standard output. -/
def RunResult.printed : RunResult → List String
  | .earlyExit p _ => p
  | _ => []

/-- Lines 24–25: the two `plt.hist` calls on the shared `bins`.  If the
edge array is rejected the exception is uncaught; otherwise the run
falls through lines 26–31 and ends with the assembled state. -/
def withPlot (st : PipelineState) : Except PyError Unit → RunResult
  | .error e => .crashed e
  | .ok _ => .finished st 0

/-- Lines 15–25 once both columns are numeric: the outcome of
`scaler.fit(combined)` decides between a crash and the rest of the
pipeline, which transforms both columns and plots the raw data over
`bins`. -/
def withScaler (mq sq : List ℚ) : Except PyError MinMaxScaler → RunResult
  | .error e => .crashed e
  | .ok scaler =>
    withPlot (buildOutput mq sq (scaler.transform mq) (scaler.transform sq))
      (plotHist (binsOf mq sq))

/-- Lines 13–25 after a successful load: `scaler.fit` raises
`ValueError` as soon as a cell is non-numeric, otherwise the pipeline
continues with the numeric columns. -/
def postLoad (df_mutex df_sem : List Cell) : RunResult :=
  match colNums df_mutex, colNums df_sem with
  | some mq, some sq => withScaler mq sq (MinMaxScaler.fit (df_mutex ++ df_sem))
  | _, _ => .crashed .valueError

/-- Lines 6–11: the `except FileNotFoundError` handler prints the
message and exits; any other load error is uncaught. -/
def handleTry : Except PyError (List Cell × List Cell) → RunResult
  | .error (.fileNotFound f) => .earlyExit [errMsg f] 0
  | .error e => .crashed e
  | .ok (df_mutex, df_sem) => postLoad df_mutex df_sem

/-- The whole script, lines 6–31.  Only `FileNotFoundError` is caught
(line 9); `scaler.fit` and the two `plt.hist` calls sit outside the
`try:` block, so their exceptions crash the process. -/
def run (fs : FileSys) : RunResult :=
  handleTry (tryRead fs)

/-! ## Folded minima and maxima of the loaded columns -/

lemma foldl_min_le_init (l : List ℚ) : ∀ a : ℚ, l.foldl min a ≤ a := by
  induction l with
  | nil => intro a; exact le_refl a
  | cons x xs ih =>
    intro a
    exact le_trans (ih (min a x)) (min_le_left a x)

lemma foldl_min_le_mem (l : List ℚ) : ∀ a x : ℚ, x ∈ l → l.foldl min a ≤ x := by
  induction l with
  | nil => intro a x hx; cases hx
  | cons y ys ih =>
    intro a x hx
    rcases List.mem_cons.mp hx with h | h
    · subst h
      exact le_trans (foldl_min_le_init ys (min a x)) (min_le_right a x)
    · exact ih (min a y) x h

lemma init_le_foldl_max (l : List ℚ) : ∀ a : ℚ, a ≤ l.foldl max a := by
  induction l with
  | nil => intro a; exact le_refl a
  | cons x xs ih =>
    intro a
    exact le_trans (le_max_left a x) (ih (max a x))

lemma mem_le_foldl_max (l : List ℚ) : ∀ a x : ℚ, x ∈ l → x ≤ l.foldl max a := by
  induction l with
  | nil => intro a x hx; cases hx
  | cons y ys ih =>
    intro a x hx
    rcases List.mem_cons.mp hx with h | h
    · subst h
      exact le_trans (le_max_right a x) (init_le_foldl_max ys (max a x))
    · exact ih (max a y) x h

lemma colMin_le_mem {l : List ℚ} {x : ℚ} (hx : x ∈ l) : colMin l ≤ x := by
  cases l with
  | nil => cases hx
  | cons y ys =>
    rcases List.mem_cons.mp hx with h | h
    · subst h; exact foldl_min_le_init ys x
    · exact foldl_min_le_mem ys y x h

lemma mem_le_colMax {l : List ℚ} {x : ℚ} (hx : x ∈ l) : x ≤ colMax l := by
  cases l with
  | nil => cases hx
  | cons y ys =>
    rcases List.mem_cons.mp hx with h | h
    · subst h; exact init_le_foldl_max ys x
    · exact mem_le_foldl_max ys y x h

lemma colMin_le_colMax {l : List ℚ} (h : l ≠ []) : colMin l ≤ colMax l := by
  cases l with
  | nil => exact absurd rfl h
  | cons y ys =>
    exact le_trans (foldl_min_le_init ys y) (init_le_foldl_max ys y)

lemma foldl_min_assoc (l : List ℚ) : ∀ a b : ℚ, l.foldl min (min a b) = min a (l.foldl min b) := by
  induction l with
  | nil => intro a b; rfl
  | cons c cs ih =>
    intro a b
    show cs.foldl min (min (min a b) c) = min a (cs.foldl min (min b c))
    rw [min_assoc, ih]

lemma foldl_max_assoc (l : List ℚ) : ∀ a b : ℚ, l.foldl max (max a b) = max a (l.foldl max b) := by
  induction l with
  | nil => intro a b; rfl
  | cons c cs ih =>
    intro a b
    show cs.foldl max (max (max a b) c) = max a (cs.foldl max (max b c))
    rw [max_assoc, ih]

lemma colMin_append {l₁ l₂ : List ℚ} (h₁ : l₁ ≠ []) (h₂ : l₂ ≠ []) :
    colMin (l₁ ++ l₂) = min (colMin l₁) (colMin l₂) := by
  cases l₁ with
  | nil => exact absurd rfl h₁
  | cons x xs =>
    cases l₂ with
    | nil => exact absurd rfl h₂
    | cons y ys =>
      show ((xs ++ y :: ys).foldl min x) = _
      rw [List.foldl_append]
      show ys.foldl min (min (xs.foldl min x) y) = _
      rw [foldl_min_assoc]
      rfl

lemma colMax_append {l₁ l₂ : List ℚ} (h₁ : l₁ ≠ []) (h₂ : l₂ ≠ []) :
    colMax (l₁ ++ l₂) = max (colMax l₁) (colMax l₂) := by
  cases l₁ with
  | nil => exact absurd rfl h₁
  | cons x xs =>
    cases l₂ with
    | nil => exact absurd rfl h₂
    | cons y ys =>
      show ((xs ++ y :: ys).foldl max x) = _
      rw [List.foldl_append]
      show ys.foldl max (max (xs.foldl max x) y) = _
      rw [foldl_max_assoc]
      rfl

lemma foldl_min_const {l : List ℚ} {v : ℚ} (h : ∀ x ∈ l, x = v) : l.foldl min v = v := by
  induction l with
  | nil => rfl
  | cons x xs ih =>
    have hx : x = v := h x (List.mem_cons_self x xs)
    subst hx
    show xs.foldl min (min x x) = x
    rw [min_self]
    exact ih (fun y hy => h y (List.mem_cons_of_mem x hy))

lemma foldl_max_const {l : List ℚ} {v : ℚ} (h : ∀ x ∈ l, x = v) : l.foldl max v = v := by
  induction l with
  | nil => rfl
  | cons x xs ih =>
    have hx : x = v := h x (List.mem_cons_self x xs)
    subst hx
    show xs.foldl max (max x x) = x
    rw [max_self]
    exact ih (fun y hy => h y (List.mem_cons_of_mem x hy))

lemma colMin_const {l : List ℚ} {v : ℚ} (hne : l ≠ []) (h : ∀ x ∈ l, x = v) :
    colMin l = v := by
  cases l with
  | nil => exact absurd rfl hne
  | cons x xs =>
    have hx : x = v := h x (List.mem_cons_self x xs)
    subst hx
    exact foldl_min_const (fun y hy => h y (List.mem_cons_of_mem x hy))

lemma colMax_const {l : List ℚ} {v : ℚ} (hne : l ≠ []) (h : ∀ x ∈ l, x = v) :
    colMax l = v := by
  cases l with
  | nil => exact absurd rfl hne
  | cons x xs =>
    have hx : x = v := h x (List.mem_cons_self x xs)
    subst hx
    exact foldl_max_const (fun y hy => h y (List.mem_cons_of_mem x hy))

/-! ## The numeric view of a column -/

lemma colNums_map_num (qs : List ℚ) : colNums (qs.map Cell.num) = some qs := by
  induction qs with
  | nil => rfl
  | cons q rest ih =>
    show (Cell.num q).toNum.bind _ = _
    rw [show (Cell.num q).toNum = some q from rfl]
    show (colNums (rest.map Cell.num)).map _ = _
    rw [ih]
    rfl

lemma colNums_append {l₁ l₂ : List Cell} {q₁ q₂ : List ℚ}
    (h₁ : colNums l₁ = some q₁) (h₂ : colNums l₂ = some q₂) :
    colNums (l₁ ++ l₂) = some (q₁ ++ q₂) := by
  induction l₁ generalizing q₁ with
  | nil =>
    cases h₁
    simpa using h₂
  | cons c cs ih =>
    rcases c with q | s
    · rw [show colNums (Cell.num q :: cs) = (colNums cs).map (fun l => q :: l) from rfl] at h₁
      rcases hcs : colNums cs with _ | qs
      · rw [hcs] at h₁; cases h₁
      · rw [hcs] at h₁
        cases h₁
        rw [List.cons_append,
          show colNums (Cell.num q :: (cs ++ l₂)) =
            (colNums (cs ++ l₂)).map (fun l => q :: l) from rfl,
          ih hcs]
        rfl
    · rw [show colNums (Cell.str s :: cs) = none from rfl] at h₁
      cases h₁

lemma colNums_length {cells : List Cell} {qs : List ℚ}
    (h : colNums cells = some qs) : qs.length = cells.length := by
  induction cells generalizing qs with
  | nil => cases h; rfl
  | cons c cs ih =>
    rcases c with q | s
    · rcases hcs : colNums cs with _ | rest
      · rw [show colNums (Cell.num q :: cs) = (colNums cs).map (fun l => q :: l) from rfl,
          hcs] at h
        cases h
      · rw [show colNums (Cell.num q :: cs) = (colNums cs).map (fun l => q :: l) from rfl,
          hcs] at h
        cases h
        simp [ih hcs]
    · rw [show colNums (Cell.str s :: cs) = none from rfl] at h
      cases h

lemma colNums_parseCell {lines : List String}
    (h : ∀ l ∈ lines, (parseNumber l).isSome) :
    ∃ qs : List ℚ, colNums (lines.map parseCell) = some qs ∧
      qs.length = lines.length := by
  induction lines with
  | nil => exact ⟨[], rfl, rfl⟩
  | cons l rest ih =>
    obtain ⟨qs, hqs, hlen⟩ := ih (fun x hx => h x (List.mem_cons_of_mem l hx))
    obtain ⟨q, hq⟩ := Option.isSome_iff_exists.mp (h l (List.mem_cons_self l rest))
    refine ⟨q :: qs, ?_, by simp [hlen]⟩
    show (parseCell l).toNum.bind _ = _
    rw [show parseCell l = Cell.num q by simp [parseCell, hq]]
    show (colNums (rest.map parseCell)).map _ = _
    rw [hqs]
    rfl

/-! ## The fitted scaler -/

lemma fit_eq {cells : List Cell} {qs : List ℚ}
    (h : colNums cells = some qs) (hne : qs ≠ []) :
    MinMaxScaler.fit cells = .ok ⟨colMin qs, colMax qs⟩ := by
  unfold MinMaxScaler.fit
  rw [h]
  cases qs with
  | nil => exact absurd rfl hne
  | cons q rest => rfl

lemma fit_append {m s : List Cell} {mq sq : List ℚ}
    (hm : colNums m = some mq) (hs : colNums s = some sq)
    (hmne : mq ≠ []) (hsne : sq ≠ []) :
    MinMaxScaler.fit (m ++ s) = .ok ⟨min_limit mq sq, max_limit mq sq⟩ := by
  have h := fit_eq (colNums_append hm hs) (by simp [hmne])
  rw [h, colMin_append hmne hsne, colMax_append hmne hsne]
  rfl

/-! ## The bin edges -/

lemma linspace_length (a b : ℚ) (n : ℕ) : (linspace a b n).length = n := by
  unfold linspace
  rcases n with _ | _ | m
  · rfl
  · rfl
  · rw [if_neg (by omega), if_neg (by omega), List.length_map, List.length_range]

lemma linspace_getElem (a b : ℚ) {n i : ℕ} (hn : 2 ≤ n) (hi : i < n) :
    (linspace a b n)[i]? = some (a + (b - a) * i / ((n : ℚ) - 1)) := by
  unfold linspace
  rw [if_neg (by omega), if_neg (by omega), List.getElem?_map, List.getElem?_range hi]
  rfl

lemma linspace_pairwise_le {a b : ℚ} (hab : a ≤ b) (n : ℕ) :
    (linspace a b n).Pairwise (· ≤ ·) := by
  unfold linspace
  rcases n with _ | _ | m
  · simp
  · simp
  · rw [if_neg (by omega), if_neg (by omega)]
    refine List.pairwise_map.mpr ?_
    refine (List.pairwise_lt_range _).imp ?_
    intro i j hij
    have hden : (0 : ℚ) < ((m + 2 : ℕ) : ℚ) - 1 := by
      push_cast
      linarith
    have hnum : (b - a) * (i : ℚ) ≤ (b - a) * (j : ℚ) :=
      mul_le_mul_of_nonneg_left (by exact_mod_cast le_of_lt hij) (sub_nonneg.mpr hab)
    have hdiv := (div_le_div_iff_of_pos_right hden).mpr hnum
    linarith

lemma linspace_pairwise_lt {a b : ℚ} (hab : a < b) (n : ℕ) :
    (linspace a b n).Pairwise (· < ·) := by
  unfold linspace
  rcases n with _ | _ | m
  · simp
  · simp
  · rw [if_neg (by omega), if_neg (by omega)]
    refine List.pairwise_map.mpr ?_
    refine (List.pairwise_lt_range _).imp ?_
    intro i j hij
    have hden : (0 : ℚ) < ((m + 2 : ℕ) : ℚ) - 1 := by
      push_cast
      linarith
    have hnum : (b - a) * (i : ℚ) < (b - a) * (j : ℚ) :=
      mul_lt_mul_of_pos_left (by exact_mod_cast hij) (sub_pos.mpr hab)
    have hdiv := (div_lt_div_iff_of_pos_right hden).mpr hnum
    linarith

lemma linspace_const (v : ℚ) (n : ℕ) : linspace v v n = List.replicate n v := by
  unfold linspace
  rcases n with _ | _ | m
  · rfl
  · rfl
  · rw [if_neg (by omega), if_neg (by omega)]
    have hconst : (List.range (m + 1 + 1)).map
        (fun i : ℕ => v + (v - v) * (i : ℚ) / (((m + 1 + 1 : ℕ) : ℚ) - 1)) =
        (List.range (m + 1 + 1)).map (fun _ : ℕ => v) :=
      List.map_congr_left (by intro i _; ring)
    rw [hconst, List.map_const', List.length_range]

lemma min_limit_le_max_limit (mq sq : List ℚ) (hm : mq ≠ []) :
    min_limit mq sq ≤ max_limit mq sq :=
  le_trans (min_le_left _ _) (le_trans (colMin_le_colMax hm) (le_max_left _ _))

lemma min_limit_le_mem {mq sq : List ℚ} {x : ℚ} (hx : x ∈ mq ++ sq) :
    min_limit mq sq ≤ x := by
  rcases List.mem_append.mp hx with h | h
  · exact le_trans (min_le_left _ _) (colMin_le_mem h)
  · exact le_trans (min_le_right _ _) (colMin_le_mem h)

lemma mem_le_max_limit {mq sq : List ℚ} {x : ℚ} (hx : x ∈ mq ++ sq) :
    x ≤ max_limit mq sq := by
  rcases List.mem_append.mp hx with h | h
  · exact le_trans (mem_le_colMax h) (le_max_left _ _)
  · exact le_trans (mem_le_colMax h) (le_max_right _ _)

lemma plotHist_ok {a b : ℚ} (hab : a ≤ b) (n : ℕ) :
    plotHist (linspace a b n) = .ok () := by
  unfold plotHist
  rw [if_pos (linspace_pairwise_le hab n).chain']

/-! ## The affine transform of the fitted scaler -/

lemma transform_min_eq_zero (a b : ℚ) :
    a * (MinMaxScaler.mk a b).scale + (MinMaxScaler.mk a b).minShift = 0 := by
  simp only [MinMaxScaler.scale, MinMaxScaler.minShift]
  ring

lemma transform_eq_div {a b x : ℚ} (hab : a < b) :
    x * (MinMaxScaler.mk a b).scale + (MinMaxScaler.mk a b).minShift = (x - a) / (b - a) := by
  simp only [MinMaxScaler.scale, MinMaxScaler.minShift, handleZeros]
  rw [if_neg (sub_ne_zero.mpr (ne_of_gt hab))]
  field_simp
  ring

lemma transform_max_eq_one {a b : ℚ} (hab : a < b) :
    b * (MinMaxScaler.mk a b).scale + (MinMaxScaler.mk a b).minShift = 1 := by
  rw [transform_eq_div hab]
  exact div_self (sub_ne_zero.mpr (ne_of_gt hab))

lemma transform_mem_unit {a b x : ℚ} (hab : a < b) (hax : a ≤ x) (hxb : x ≤ b) :
    0 ≤ x * (MinMaxScaler.mk a b).scale + (MinMaxScaler.mk a b).minShift ∧
      x * (MinMaxScaler.mk a b).scale + (MinMaxScaler.mk a b).minShift ≤ 1 := by
  rw [transform_eq_div hab]
  constructor
  · exact div_nonneg (sub_nonneg.mpr hax) (sub_nonneg.mpr (le_of_lt hab))
  · rw [div_le_one (sub_pos.mpr hab)]
    linarith

/-! ## Shapes of the whole run -/

lemma run_mutex_missing (sf : Option (List String)) :
    run ⟨none, sf⟩ = .earlyExit [errMsg mutexPath] 0 := rfl

lemma run_sem_missing (m : String) (ms : List String) :
    run ⟨some (m :: ms), none⟩ = .earlyExit [errMsg semPath] 0 := rfl

lemma tryRead_ok (m : String) (ms : List String) (s : String) (ss : List String) :
    tryRead ⟨some (m :: ms), some (s :: ss)⟩ =
      .ok ((m :: ms).map parseCell, (s :: ss).map parseCell) := rfl

lemma run_eq_finished {fs : FileSys} {m s : List Cell} {mq sq : List ℚ}
    {sc : MinMaxScaler}
    (ht : tryRead fs = .ok (m, s))
    (hmq : colNums m = some mq) (hsq : colNums s = some sq)
    (hfit : MinMaxScaler.fit (m ++ s) = .ok sc)
    (hplot : plotHist (binsOf mq sq) = .ok ()) :
    run fs = .finished (buildOutput mq sq (sc.transform mq) (sc.transform sq)) 0 := by
  unfold run
  rw [ht]
  show postLoad m s = _
  unfold postLoad
  rw [hmq, hsq]
  show withScaler mq sq (MinMaxScaler.fit (m ++ s)) = _
  rw [hfit]
  show withPlot _ (plotHist (binsOf mq sq)) = _
  rw [hplot]
  rfl

lemma withPlot_shape (st : PipelineState) (r : Except PyError Unit) :
    (∃ e, withPlot st r = .crashed e) ∨ withPlot st r = .finished st 0 := by
  cases r with
  | error e => exact Or.inl ⟨e, rfl⟩
  | ok u => cases u; exact Or.inr rfl

lemma withScaler_shape (mq sq : List ℚ) (r : Except PyError MinMaxScaler) :
    (∃ e, withScaler mq sq r = .crashed e) ∨
      (∃ st, withScaler mq sq r = .finished st 0) := by
  cases r with
  | error e => exact Or.inl ⟨e, rfl⟩
  | ok sc =>
    rcases withPlot_shape
        (buildOutput mq sq (sc.transform mq) (sc.transform sq))
        (plotHist (binsOf mq sq)) with ⟨e, he⟩ | hfin
    · exact Or.inl ⟨e, he⟩
    · exact Or.inr ⟨_, hfin⟩

lemma postLoad_shape (m s : List Cell) :
    (∃ e, postLoad m s = .crashed e) ∨ (∃ st, postLoad m s = .finished st 0) := by
  unfold postLoad
  rcases hm : colNums m with _ | mq
  · rcases hs : colNums s with _ | sq
    · exact Or.inl ⟨_, rfl⟩
    · exact Or.inl ⟨_, rfl⟩
  · rcases hs : colNums s with _ | sq
    · exact Or.inl ⟨_, rfl⟩
    · exact withScaler_shape mq sq (MinMaxScaler.fit (m ++ s))

lemma run_shape (fs : FileSys) :
    (∃ e, run fs = .crashed e) ∨ (∃ st, run fs = .finished st 0) ∨
      (∃ f, run fs = .earlyExit [errMsg f] 0) := by
  unfold run
  cases ht : tryRead fs with
  | error e =>
    cases e with
    | fileNotFound f => exact Or.inr (Or.inr ⟨f, rfl⟩)
    | emptyData f => exact Or.inl ⟨_, rfl⟩
    | valueError => exact Or.inl ⟨_, rfl⟩
  | ok pair =>
    obtain ⟨m, s⟩ := pair
    rcases postLoad_shape m s with ⟨e, he⟩ | ⟨st, hst⟩
    · exact Or.inl ⟨e, he⟩
    · exact Or.inr (Or.inl ⟨st, hst⟩)

/-! ## The claims -/

/-- C1 (amended): whenever at least one of the two input files is
missing and the mutex file, if present, is non-empty, the run prints
exactly `Error: No se encontró el archivo <filename>.` naming the
first missing file in read order — the mutex path when the mutex file
is missing (without the semaphore file being consulted), otherwise the
semaphore path — and exits cleanly without fitting, binning or
rendering. -/
theorem missing_file_message_and_exit (fs : FileSys)
    (hmiss : fs.mutexFile = none ∨ fs.semFile = none)
    (hne : ∀ lines, fs.mutexFile = some lines → lines ≠ []) :
    ∃ f, run fs = .earlyExit [errMsg f] 0 ∧
      ((fs.mutexFile = none ∧ f = mutexPath) ∨
       (fs.mutexFile ≠ none ∧ fs.semFile = none ∧ f = semPath)) := by
  obtain ⟨mf, sf⟩ := fs
  rcases hmf : mf with _ | mlines
  · subst hmf
    exact ⟨mutexPath, run_mutex_missing sf, Or.inl ⟨rfl, rfl⟩⟩
  · subst hmf
    rcases hmiss with h | h
    · exact Option.noConfusion h
    · have hsf : sf = none := h
      subst hsf
      have hml : mlines ≠ [] := hne mlines rfl
      cases mlines with
      | nil => exact absurd rfl hml
      | cons l ls =>
        exact ⟨semPath, run_sem_missing l ls,
          Or.inr ⟨Option.noConfusion, rfl, rfl⟩⟩

/-- Witness for C1 at a concrete input: with the mutex file missing the
run prints the message naming the mutex path and exits with status 0. -/
theorem missing_file_message_and_exit_witness :
    run ⟨none, some ["1"]⟩ = .earlyExit [errMsg mutexPath] 0 := by
  obtain ⟨f, hrun, hf⟩ := missing_file_message_and_exit ⟨none, some ["1"]⟩
    (Or.inl rfl) (fun lines h => Option.noConfusion h)
  rcases hf with ⟨_, rfl⟩ | ⟨hno, _, _⟩
  · exact hrun
  · exact absurd rfl hno

/-- Counterexample to C1 as stated: the semaphore file is missing, yet
because the mutex file exists but is empty, `read_csv` raises
`EmptyDataError` first; the run crashes with no message printed and the
missing semaphore file is never reported. -/
theorem missing_file_message_counterexample :
    run ⟨some [], none⟩ = .crashed (.emptyData mutexPath) ∧
      (run ⟨some [], none⟩).printed = [] :=
  ⟨rfl, rfl⟩

/-- C2: for non-empty loaded sample sets, the bin edge array has exactly
100 linearly spaced points, its first element is the smaller of the two
raw minima, its last element is the larger of the two raw maxima, the
array is monotonically non-decreasing (the sense in which numpy accepts
edge arrays), and it is strictly increasing whenever the range is
non-degenerate. -/
theorem bins_linspace_spec (mq sq : List ℚ) (hm : mq ≠ []) (hs : sq ≠ []) :
    (binsOf mq sq).length = 100 ∧
    (binsOf mq sq)[0]? = some (min_limit mq sq) ∧
    (binsOf mq sq)[99]? = some (max_limit mq sq) ∧
    (binsOf mq sq).Pairwise (· ≤ ·) ∧
    (min_limit mq sq < max_limit mq sq → (binsOf mq sq).Pairwise (· < ·)) := by
  have hab := min_limit_le_max_limit mq sq hm
  refine ⟨linspace_length _ _ _, ?_, ?_,
    linspace_pairwise_le hab _, fun hlt => linspace_pairwise_lt hlt _⟩
  · unfold binsOf
    rw [linspace_getElem _ _ (by norm_num) (by norm_num)]
    norm_num
  · unfold binsOf
    rw [linspace_getElem _ _ (by norm_num) (by norm_num)]
    congr 1
    push_cast
    ring_nf

/-- Witness for C2 at the spec's example: for mutex = [10,20,30] and
sem = [5,15,25] the 100 edges run from 5 to 30 and increase strictly. -/
theorem bins_linspace_spec_witness :
    min_limit [10, 20, 30] [5, 15, 25] = 5 ∧
    max_limit [10, 20, 30] [5, 15, 25] = 30 ∧
    ((binsOf [10, 20, 30] [5, 15, 25]).length = 100 ∧
      (binsOf [10, 20, 30] [5, 15, 25])[0]? =
        some (min_limit [10, 20, 30] [5, 15, 25]) ∧
      (binsOf [10, 20, 30] [5, 15, 25])[99]? =
        some (max_limit [10, 20, 30] [5, 15, 25]) ∧
      (binsOf [10, 20, 30] [5, 15, 25]).Pairwise (· ≤ ·) ∧
      (min_limit [10, 20, 30] [5, 15, 25] < max_limit [10, 20, 30] [5, 15, 25] →
        (binsOf [10, 20, 30] [5, 15, 25]).Pairwise (· < ·))) ∧
    min_limit [10, 20, 30] [5, 15, 25] < max_limit [10, 20, 30] [5, 15, 25] :=
  ⟨by decide, by decide,
    bins_linspace_spec [10, 20, 30] [5, 15, 25] (by decide) (by decide),
    by decide⟩

/-- C3 (amended): for non-empty sample sets whose union has a strictly
positive range, the scaler fitted on the concatenation maps the global
minimum to 0 and the global maximum to 1, and both independently
transformed arrays lie inside [0, 1].  (In the degenerate all-equal
case sklearn's zero-range guard maps every value, the maximum
included, to 0.) -/
theorem scaler_unit_interval (mq sq : List ℚ) (hm : mq ≠ []) (hs : sq ≠ [])
    (hlt : min_limit mq sq < max_limit mq sq) :
    MinMaxScaler.fit ((mq ++ sq).map Cell.num) =
      .ok ⟨min_limit mq sq, max_limit mq sq⟩ ∧
    min_limit mq sq *
        (MinMaxScaler.mk (min_limit mq sq) (max_limit mq sq)).scale +
        (MinMaxScaler.mk (min_limit mq sq) (max_limit mq sq)).minShift = 0 ∧
    max_limit mq sq *
        (MinMaxScaler.mk (min_limit mq sq) (max_limit mq sq)).scale +
        (MinMaxScaler.mk (min_limit mq sq) (max_limit mq sq)).minShift = 1 ∧
    (∀ y ∈ (MinMaxScaler.mk (min_limit mq sq) (max_limit mq sq)).transform mq,
      0 ≤ y ∧ y ≤ 1) ∧
    (∀ y ∈ (MinMaxScaler.mk (min_limit mq sq) (max_limit mq sq)).transform sq,
      0 ≤ y ∧ y ≤ 1) := by
  refine ⟨?_, transform_min_eq_zero _ _, transform_max_eq_one hlt, ?_, ?_⟩
  · rw [List.map_append]
    exact fit_append (colNums_map_num mq) (colNums_map_num sq) hm hs
  · intro y hy
    obtain ⟨x, hx, rfl⟩ := List.mem_map.mp hy
    exact transform_mem_unit hlt
      (min_limit_le_mem (List.mem_append_left sq hx))
      (mem_le_max_limit (List.mem_append_left sq hx))
  · intro y hy
    obtain ⟨x, hx, rfl⟩ := List.mem_map.mp hy
    exact transform_mem_unit hlt
      (min_limit_le_mem (List.mem_append_right mq hx))
      (mem_le_max_limit (List.mem_append_right mq hx))

/-- Witness for C3 at the spec's example mutex = [1,2,3], sem = [2,3,4]:
the fitted scaler sends the global minimum 1 to 0 and the global
maximum 4 to 1. -/
theorem scaler_unit_interval_witness :
    min_limit [1, 2, 3] [2, 3, 4] = 1 ∧
    max_limit [1, 2, 3] [2, 3, 4] = 4 ∧
    min_limit [1, 2, 3] [2, 3, 4] *
        (MinMaxScaler.mk (min_limit [1, 2, 3] [2, 3, 4])
          (max_limit [1, 2, 3] [2, 3, 4])).scale +
        (MinMaxScaler.mk (min_limit [1, 2, 3] [2, 3, 4])
          (max_limit [1, 2, 3] [2, 3, 4])).minShift = 0 ∧
    max_limit [1, 2, 3] [2, 3, 4] *
        (MinMaxScaler.mk (min_limit [1, 2, 3] [2, 3, 4])
          (max_limit [1, 2, 3] [2, 3, 4])).scale +
        (MinMaxScaler.mk (min_limit [1, 2, 3] [2, 3, 4])
          (max_limit [1, 2, 3] [2, 3, 4])).minShift = 1 :=
  ⟨by decide, by decide,
    (scaler_unit_interval [1, 2, 3] [2, 3, 4] (by decide) (by decide)
      (by decide)).2.1,
    (scaler_unit_interval [1, 2, 3] [2, 3, 4] (by decide) (by decide)
      (by decide)).2.2.1⟩

/-- Counterexample to C3 as stated: for the non-empty sets [1] and [1]
the global maximum is 1, yet the fitted scaler (zero range, so
sklearn's guard makes the scale 1) sends it to 0, not 1. -/
theorem scaler_unit_interval_counterexample :
    min_limit [(1 : ℚ)] [(1 : ℚ)] = 1 ∧
    max_limit [(1 : ℚ)] [(1 : ℚ)] = 1 ∧
    MinMaxScaler.fit ((([(1 : ℚ)] ++ [(1 : ℚ)])).map Cell.num) =
      .ok ⟨1, 1⟩ ∧
    (1 : ℚ) * (MinMaxScaler.mk 1 1).scale + (MinMaxScaler.mk 1 1).minShift
      = 0 := by
  refine ⟨by decide, by decide, by rfl,
    by norm_num [MinMaxScaler.scale, MinMaxScaler.minShift, handleZeros]⟩

/-- C4: the two scaled arrays are dead values — the chart is identical
for arbitrary replacements of them, equals the render of the raw
columns over the raw-range bins, and its two histogram series carry the
raw loaded values. -/
theorem scaled_arrays_unused (mq sq a b a2 b2 : List ℚ) :
    (buildOutput mq sq a b).chart = (buildOutput mq sq a2 b2).chart ∧
    (buildOutput mq sq a b).chart = renderChart mq sq (binsOf mq sq) ∧
    (buildOutput mq sq a b).chart.series.map HistSeries.values = [mq, sq] :=
  ⟨rfl, rfl, rfl⟩

/-- C5: every load failure other than a missing file (empty files,
non-numeric content reaching `scaler.fit`) is not caught: the run ends
as an uncaught-exception crash and nothing is printed. -/
theorem only_missing_file_handled :
    (∀ fs e, tryRead fs = .error e → (∀ f, e ≠ PyError.fileNotFound f) →
      run fs = .crashed e ∧ (run fs).printed = []) ∧
    (∀ fs m s, tryRead fs = .ok (m, s) →
      (colNums m = none ∨ colNums s = none) →
      run fs = .crashed .valueError ∧ (run fs).printed = []) := by
  constructor
  · intro fs e ht hnf
    have hrun : run fs = .crashed e := by
      unfold run
      rw [ht]
      cases e with
      | fileNotFound f => exact absurd rfl (hnf f)
      | emptyData f => rfl
      | valueError => rfl
    exact ⟨hrun, by rw [hrun]; rfl⟩
  · intro fs m s ht h
    have hrun : run fs = .crashed .valueError := by
      unfold run
      rw [ht]
      show postLoad m s = _
      unfold postLoad
      rcases hm : colNums m with _ | mq
      · rcases hs : colNums s with _ | sq
        · rfl
        · rfl
      · rcases hs : colNums s with _ | sq
        · rfl
        · rcases h with h | h
          · rw [hm] at h
            cases h
          · rw [hs] at h
            cases h
    exact ⟨hrun, by rw [hrun]; rfl⟩

/-- Witness for C5 at a concrete input: an empty (zero-line) mutex file
raises `EmptyDataError`, which is not caught and prints nothing. -/
theorem only_missing_file_handled_witness :
    run ⟨some [], some ["1"]⟩ = .crashed (.emptyData mutexPath) ∧
      (run ⟨some [], some ["1"]⟩).printed = [] :=
  only_missing_file_handled.1 ⟨some [], some ["1"]⟩ (.emptyData mutexPath) rfl
    (fun f h => PyError.noConfusion h)

/-- C6: the pipeline is a pure function of the two file contents — two
runs over equal contents give the same result, in particular the same
bin edges and the same scaled arrays. -/
theorem pipeline_deterministic (fs1 fs2 : FileSys)
    (hm : fs1.mutexFile = fs2.mutexFile) (hs : fs1.semFile = fs2.semFile) :
    run fs1 = run fs2 ∧
    (run fs1).stateOf.map PipelineState.bins =
      (run fs2).stateOf.map PipelineState.bins ∧
    (run fs1).stateOf.map PipelineState.scaled_mutex =
      (run fs2).stateOf.map PipelineState.scaled_mutex ∧
    (run fs1).stateOf.map PipelineState.scaled_sem =
      (run fs2).stateOf.map PipelineState.scaled_sem := by
  obtain ⟨m1, s1⟩ := fs1
  obtain ⟨m2, s2⟩ := fs2
  have hm2 : m1 = m2 := hm
  have hs2 : s1 = s2 := hs
  subst hm2
  subst hs2
  exact ⟨rfl, rfl, rfl, rfl⟩

/-- Witness for C6 at a concrete input. -/
theorem pipeline_deterministic_witness :
    run ⟨some ["7"], some ["8"]⟩ = run ⟨some ["7"], some ["8"]⟩ :=
  (pipeline_deterministic ⟨some ["7"], some ["8"]⟩ ⟨some ["7"], some ["8"]⟩
    rfl rfl).1

/-- C7: with both files present, non-empty and fully numeric the run
prints nothing and finishes with a figure and exit status 0; for the
concrete inputs mutex = ["100","150","120"], sem = ["200","210"] the
figure holds two histogram series with the raw values, sharing the
100-edge bin set that spans [100, 210]. -/
theorem wellformed_run_finishes :
    (∀ fs mlines slines, fs.mutexFile = some mlines → fs.semFile = some slines →
      mlines ≠ [] → slines ≠ [] →
      (∀ l ∈ mlines, (parseNumber l).isSome) →
      (∀ l ∈ slines, (parseNumber l).isSome) →
      (run fs).printed = [] ∧ (run fs).stateOf.isSome = true ∧
        (run fs).exitStatus = 0) ∧
    ((run ⟨some ["100", "150", "120"], some ["200", "210"]⟩).printed = [] ∧
     (run ⟨some ["100", "150", "120"], some ["200", "210"]⟩).stateOf.map
        PipelineState.bins = some (binsOf [100, 150, 120] [200, 210]) ∧
     (run ⟨some ["100", "150", "120"], some ["200", "210"]⟩).stateOf.map
        (fun st => st.bins.length) = some 100 ∧
     (run ⟨some ["100", "150", "120"], some ["200", "210"]⟩).stateOf.map
        (fun st => st.bins[0]?) = some (some 100) ∧
     (run ⟨some ["100", "150", "120"], some ["200", "210"]⟩).stateOf.map
        (fun st => st.bins[99]?) = some (some 210) ∧
     (run ⟨some ["100", "150", "120"], some ["200", "210"]⟩).stateOf.map
        (fun st => st.chart.series.map HistSeries.bins) =
        some [binsOf [100, 150, 120] [200, 210],
          binsOf [100, 150, 120] [200, 210]] ∧
     (run ⟨some ["100", "150", "120"], some ["200", "210"]⟩).stateOf.map
        (fun st => st.chart.series.map HistSeries.values) =
        some [[100, 150, 120], [200, 210]] ∧
     (run ⟨some ["100", "150", "120"], some ["200", "210"]⟩).exitStatus = 0) := by
  constructor
  · intro fs mlines slines hmf hsf hmne hsne hmp hsp
    obtain ⟨mf, sf⟩ := fs
    have hmf2 : mf = some mlines := hmf
    have hsf2 : sf = some slines := hsf
    subst hmf2
    subst hsf2
    obtain ⟨mq, hmq, hmlen⟩ := colNums_parseCell hmp
    obtain ⟨sq, hsq, hslen⟩ := colNums_parseCell hsp
    have hmqne : mq ≠ [] := by
      intro h
      rw [h] at hmlen
      exact hmne (List.length_eq_zero.mp hmlen.symm)
    have hsqne : sq ≠ [] := by
      intro h
      rw [h] at hslen
      exact hsne (List.length_eq_zero.mp hslen.symm)
    have hfit := fit_append hmq hsq hmqne hsqne
    have hplot : plotHist (binsOf mq sq) = .ok () :=
      plotHist_ok (min_limit_le_max_limit mq sq hmqne) 100
    cases mlines with
    | nil => exact absurd rfl hmne
    | cons l ls =>
      cases slines with
      | nil => exact absurd rfl hsne
      | cons r rs =>
        have hrun := run_eq_finished (tryRead_ok l ls r rs) hmq hsq hfit hplot
        rw [hrun]
        exact ⟨rfl, rfl, rfl⟩
  · have hmq : colNums (["100", "150", "120"].map parseCell) =
        some [100, 150, 120] := by decide
    have hsq : colNums (["200", "210"].map parseCell) = some [200, 210] := by
      decide
    have hfit : MinMaxScaler.fit
        (["100", "150", "120"].map parseCell ++ ["200", "210"].map parseCell) =
        .ok ⟨100, 210⟩ := by
      rw [fit_eq (colNums_append hmq hsq) (by decide)]
      rfl
    have hplot : plotHist (binsOf [100, 150, 120] [200, 210]) = .ok () :=
      plotHist_ok (min_limit_le_max_limit [100, 150, 120] [200, 210] (by decide))
        100
    have hrun := run_eq_finished (tryRead_ok "100" ["150", "120"] "200" ["210"])
      hmq hsq hfit hplot
    rw [hrun]
    refine ⟨rfl, rfl, ?_, ?_, ?_, rfl, rfl, rfl⟩
    · show some (binsOf [100, 150, 120] [200, 210]).length = some 100
      unfold binsOf
      rw [linspace_length]
    · show some (binsOf [100, 150, 120] [200, 210])[0]? = some (some 100)
      unfold binsOf
      rw [linspace_getElem _ _ (by norm_num) (by norm_num)]
      rw [show min_limit [100, 150, 120] [200, 210] = 100 from by decide,
        show max_limit [100, 150, 120] [200, 210] = 210 from by decide]
      norm_num
    · show some (binsOf [100, 150, 120] [200, 210])[99]? = some (some 210)
      unfold binsOf
      rw [linspace_getElem _ _ (by norm_num) (by norm_num)]
      rw [show min_limit [100, 150, 120] [200, 210] = 100 from by decide,
        show max_limit [100, 150, 120] [200, 210] = 210 from by decide]
      norm_num

/-- Witness for C7's universal part at a concrete well-formed input. -/
theorem wellformed_run_finishes_witness :
    (run ⟨some ["1"], some ["2"]⟩).printed = [] ∧
      (run ⟨some ["1"], some ["2"]⟩).stateOf.isSome = true ∧
      (run ⟨some ["1"], some ["2"]⟩).exitStatus = 0 :=
  wellformed_run_finishes.1 ⟨some ["1"], some ["2"]⟩ ["1"] ["2"] rfl rfl
    (by decide) (by decide) (by decide) (by decide)

/-- C8: the interval the scaler is fitted on and the interval the bin
edges span coincide — the fitted data minimum is `min_limit` and the
fitted data maximum is `max_limit`. -/
theorem fitted_range_matches_limits (mq sq : List ℚ) (hm : mq ≠ [])
    (hs : sq ≠ []) (sc : MinMaxScaler)
    (hfit : MinMaxScaler.fit ((mq ++ sq).map Cell.num) = .ok sc) :
    sc.dataMin = min_limit mq sq ∧ sc.dataMax = max_limit mq sq := by
  rw [List.map_append,
    fit_append (colNums_map_num mq) (colNums_map_num sq) hm hs] at hfit
  cases hfit
  exact ⟨rfl, rfl⟩

/-- Witness for C8 at the spec's bin-edge example. -/
theorem fitted_range_matches_limits_witness :
    MinMaxScaler.fit ((([10, 20, 30] ++ [5, 15, 25] : List ℚ)).map Cell.num) =
      .ok ⟨5, 30⟩ ∧
    (MinMaxScaler.mk 5 30).dataMin = min_limit [10, 20, 30] [5, 15, 25] ∧
    (MinMaxScaler.mk 5 30).dataMax = max_limit [10, 20, 30] [5, 15, 25] := by
  have h : MinMaxScaler.fit
      ((([10, 20, 30] ++ [5, 15, 25] : List ℚ)).map Cell.num) = .ok ⟨5, 30⟩ := by
    rw [List.map_append,
      fit_eq (colNums_append (colNums_map_num [10, 20, 30])
        (colNums_map_num [5, 15, 25])) (by decide)]
    rfl
  exact ⟨h, fitted_range_matches_limits [10, 20, 30] [5, 15, 25]
    (by decide) (by decide) ⟨5, 30⟩ h⟩

/-- C9: the handled error path calls the argument-less `exit()`, so the
exit status is 0 — by exit status alone it is indistinguishable from a
successful run, which also ends with status 0. -/
theorem handled_exit_status_zero :
    (∀ fs p c, run fs = .earlyExit p c → c = 0) ∧
    (∀ fs st c, run fs = .finished st c → c = 0) := by
  constructor
  · intro fs p c h
    rcases run_shape fs with ⟨e, he⟩ | ⟨st, hst⟩ | ⟨f, hf⟩
    · rw [he] at h
      cases h
    · rw [hst] at h
      cases h
    · rw [hf] at h
      injection h with h1 h2
      exact h2.symm
  · intro fs st c h
    rcases run_shape fs with ⟨e, he⟩ | ⟨st2, hst⟩ | ⟨f, hf⟩
    · rw [he] at h
      cases h
    · rw [hst] at h
      injection h with h1 h2
      exact h2.symm
    · rw [hf] at h
      cases h

/-- Witness for C9: a run with the mutex file missing exits through the
handler with status 0, and a successful run also has status 0. -/
theorem handled_exit_status_zero_witness :
    run ⟨none, some ["1"]⟩ = .earlyExit [errMsg mutexPath] 0 ∧
      (0 : ℕ) = 0 ∧ (run ⟨some ["1"], some ["2"]⟩).exitStatus = 0 := by
  refine ⟨rfl,
    handled_exit_status_zero.1 ⟨none, some ["1"]⟩ [errMsg mutexPath] 0 rfl, ?_⟩
  have hmq : colNums (["1"].map parseCell) = some [1] := by decide
  have hsq : colNums (["2"].map parseCell) = some [2] := by decide
  have hfit : MinMaxScaler.fit (["1"].map parseCell ++ ["2"].map parseCell) =
      .ok ⟨1, 2⟩ := by
    rw [fit_eq (colNums_append hmq hsq) (by decide)]
    rfl
  have hplot : plotHist (binsOf [1] [2]) = .ok () :=
    plotHist_ok (min_limit_le_max_limit [1] [2] (by decide)) 100
  have hrun := run_eq_finished (tryRead_ok "1" [] "2" []) hmq hsq hfit hplot
  rw [hrun]
  rfl

/-- C10 (amended): when every loaded value equals a single `v`, the bin
edge array is 100 copies of `v` and is not strictly increasing; but the
histogram rendering does not fail on it — numpy's non-strict
monotonicity check accepts the constant edge array, so the run still
produces a chart. -/
theorem degenerate_bins_constant (mq sq : List ℚ) (v : ℚ) (hm : mq ≠ [])
    (hs : sq ≠ []) (hall : ∀ x ∈ mq ++ sq, x = v) :
    binsOf mq sq = List.replicate 100 v ∧
    ¬ (binsOf mq sq).Pairwise (· < ·) ∧
    plotHist (binsOf mq sq) = .ok () := by
  have hmv : colMin mq = v :=
    colMin_const hm (fun x hx => hall x (List.mem_append_left sq hx))
  have hMv : colMax mq = v :=
    colMax_const hm (fun x hx => hall x (List.mem_append_left sq hx))
  have hsv : colMin sq = v :=
    colMin_const hs (fun x hx => hall x (List.mem_append_right mq hx))
  have hSv : colMax sq = v :=
    colMax_const hs (fun x hx => hall x (List.mem_append_right mq hx))
  have hmin : min_limit mq sq = v := by
    rw [min_limit, hmv, hsv, min_self]
  have hmax : max_limit mq sq = v := by
    rw [max_limit, hMv, hSv, max_self]
  have hb : binsOf mq sq = List.replicate 100 v := by
    unfold binsOf
    rw [hmin, hmax, linspace_const]
  refine ⟨hb, ?_, ?_⟩
  · rw [hb]
    intro hpw
    rw [show List.replicate 100 v = v :: v :: List.replicate 98 v from rfl]
      at hpw
    exact lt_irrefl v
      ((List.pairwise_cons.mp hpw).1 v (List.mem_cons_self v _))
  · unfold binsOf
    rw [hmin, hmax]
    exact plotHist_ok (le_refl v) 100

/-- Witness for C10 at the concrete degenerate input mutex = [10],
sem = [10]. -/
theorem degenerate_bins_constant_witness :
    binsOf [10] [10] = List.replicate 100 10 ∧
    ¬ (binsOf [10] [10]).Pairwise (· < ·) ∧
    plotHist (binsOf [10] [10]) = .ok () :=
  degenerate_bins_constant [10] [10] 10 (by decide) (by decide) (by decide)

/-- Counterexample to C10's rendering claim: with mutex = ["10"] and
sem = ["10"] the run finishes with status 0 and a chart whose bins are
the 100 copies of 10 — the degenerate bins do not make the rendering
fail. -/
theorem degenerate_render_counterexample :
    (run ⟨some ["10"], some ["10"]⟩).stateOf.map PipelineState.bins =
      some (List.replicate 100 10) ∧
    (run ⟨some ["10"], some ["10"]⟩).exitStatus = 0 := by
  have hmq : colNums (["10"].map parseCell) = some [10] := by decide
  have hfit : MinMaxScaler.fit (["10"].map parseCell ++ ["10"].map parseCell) =
      .ok ⟨10, 10⟩ := by
    rw [fit_eq (colNums_append hmq hmq) (by decide)]
    rfl
  have hb : binsOf [10] [10] = List.replicate 100 10 := by
    unfold binsOf
    rw [show min_limit [10] [10] = 10 from by decide,
      show max_limit [10] [10] = 10 from by decide, linspace_const]
  have hplot : plotHist (binsOf [10] [10]) = .ok () := by
    unfold binsOf
    rw [show min_limit [10] [10] = 10 from by decide,
      show max_limit [10] [10] = 10 from by decide]
    exact plotHist_ok (le_refl 10) 100
  have hrun := run_eq_finished (tryRead_ok "10" [] "10" []) hmq hmq hfit hplot
  rw [hrun]
  refine ⟨?_, rfl⟩
  show some (binsOf [10] [10]) = some (List.replicate 100 10)
  rw [hb]
